import Mathlib

/-!
Verification of the sliding-window-log rate limiter implemented in
src/task02.py (class SlidingWindowRateLimiter).

Shallow-embedding conventions, mirroring the Python source:

- Python float timestamps are modelled as rationals (exact arithmetic on an
  ordered field; the claims are about ordering and arithmetic, not rounding).
- Python int parameters are modelled as integers.
- Every call to time.perf_counter() becomes an explicit time argument of the
  embedded function; a method that reads the clock twice (record_message)
  takes two time arguments, in the order the reads occur.
- The dict request_history is modelled as an association list with
  first-match lookup; dict assignment updates the first matching entry in
  place or appends a fresh entry, and del removes the entry.
- The deque is modelled as a list: popleft-while-expired becomes
  List.dropWhile, append-right becomes concatenation with a singleton.
- A Python KeyError is modelled as Except.error (); methods that can raise
  return an Except value paired with the state as left behind by the call,
  since mutations made before the raise survive it.
-/

/-- Keys are the user_id strings of the source. -/
abbrev Key := String

/-- Timestamps, the float values returned by time.perf_counter(). -/
abbrev Time := ℚ

/-- The request_history dictionary: key to list of timestamps. -/
abbrev Hist := List (Key × List Time)

/-- First-match lookup in the history association list (dict access /
membership test). -/
def histLookup (h : Hist) (k : Key) : Option (List Time) :=
  match h with
  | [] => none
  | (k', l) :: t => if k' = k then some l else histLookup t k

/-- Dict assignment: replace the first entry for the key in place, or append
a fresh entry at the end when the key is absent. -/
def histSet (h : Hist) (k : Key) (l : List Time) : Hist :=
  match h with
  | [] => [(k, l)]
  | (k', l') :: t => if k' = k then (k, l) :: t else (k', l') :: histSet t k l

/-- Dict deletion (the del statement): remove the entries for the key. -/
def histErase (h : Hist) (k : Key) : Hist :=
  h.filter (fun p => decide (p.1 ≠ k))

/-- State of a SlidingWindowRateLimiter instance: the two configuration
fields set by the constructor and the request_history dictionary. -/
structure SlidingWindowRateLimiter where
  window_size : ℚ
  max_requests : ℤ
  request_history : Hist
  deriving DecidableEq

/-- Embedding of the constructor body: it stores the two parameters without
any validation and starts with an empty history.  In Python the parameters
have defaults window_size=10 and max_requests=1. -/
def SlidingWindowRateLimiter.init (window_size : ℚ) (max_requests : ℤ) :
    SlidingWindowRateLimiter :=
  { window_size := window_size, max_requests := max_requests, request_history := [] }

/-- Construction with no arguments: the Python default parameter values
window_size=10 and max_requests=1 are substituted into the constructor body. -/
def SlidingWindowRateLimiter.initDefault : SlidingWindowRateLimiter :=
  { window_size := 10, max_requests := 1, request_history := [] }

/-- Embedding of _cleanup_window: no-op for an absent key; otherwise pop
expired stamps (those with t <= current_time - window_size) from the head of
the deque, then delete the key if its deque emptied. -/
def SlidingWindowRateLimiter.cleanup_window (s : SlidingWindowRateLimiter)
    (k : Key) (now : Time) : SlidingWindowRateLimiter :=
  match histLookup s.request_history k with
  | none => s
  | some l =>
    let l' := l.dropWhile (fun t => decide (t ≤ now - s.window_size))
    if l' = [] then { s with request_history := histErase s.request_history k }
    else { s with request_history := histSet s.request_history k l' }

/-- Embedding of can_send_message: reads the clock once (the now argument),
evicts the key's window for that time, then returns True when the key is
absent or its deque is empty, and otherwise compares the deque length with
max_requests.  The returned pair carries the decision and the state as left
by the eviction. -/
def SlidingWindowRateLimiter.can_send_message (s : SlidingWindowRateLimiter)
    (k : Key) (now : Time) : Bool × SlidingWindowRateLimiter :=
  let s' := s.cleanup_window k now
  match histLookup s'.request_history k with
  | none => (true, s')
  | some l =>
    if l = [] then (true, s')
    else (decide ((l.length : ℤ) < s.max_requests), s')

/-- Embedding of record_message: first calls can_send_message, which reads
the clock a first time (t1) and evicts; when denied it returns False with the
state left by that call.  When admitted it reads the clock a second time
(t2), creates the deque if the key is absent, appends t2 and returns True. -/
def SlidingWindowRateLimiter.record_message (s : SlidingWindowRateLimiter)
    (k : Key) (t1 t2 : Time) : Bool × SlidingWindowRateLimiter :=
  let r := s.can_send_message k t1
  if r.1 then
    let l := (histLookup r.2.request_history k).getD []
    (true, { r.2 with request_history := histSet r.2.request_history k (l ++ [t2]) })
  else (false, r.2)

/-- Embedding of time_until_next_allowed: returns 0 for a key that is absent
before the clock is read; otherwise reads the clock (now), evicts, and then
accesses self.request_history[user_id] again, which raises KeyError
(Except.error) when the eviction has just deleted the key.  Otherwise it
returns 0 when the deque is empty or below max_requests, and
max 0 (oldest + window_size - now) when saturated.  The second component is
the state as left behind by the call, eviction included, which survives even
when KeyError is raised. -/
def SlidingWindowRateLimiter.time_until_next_allowed (s : SlidingWindowRateLimiter)
    (k : Key) (now : Time) : Except Unit Time × SlidingWindowRateLimiter :=
  match histLookup s.request_history k with
  | none => (Except.ok 0, s)
  | some _ =>
    let s' := s.cleanup_window k now
    match histLookup s'.request_history k with
    | none => (Except.error (), s')
    | some [] => (Except.ok 0, s')
    | some (oldest :: rest) =>
      if ((oldest :: rest).length : ℤ) < s.max_requests then (Except.ok 0, s')
      else (Except.ok (max 0 (oldest + s.window_size - now)), s')

/-- One externally callable operation on a limiter, together with the clock
reading(s) its execution consumes. -/
inductive Op
  | send (k : Key) (t : Time)
  | record (k : Key) (t1 t2 : Time)
  | timeUntil (k : Key) (t : Time)
  deriving DecidableEq

/-- State reached after executing one operation (the mutation each method
performs on self.request_history). -/
def applyOp (s : SlidingWindowRateLimiter) : Op → SlidingWindowRateLimiter
  | .send k t => (s.can_send_message k t).2
  | .record k t1 t2 => (s.record_message k t1 t2).2
  | .timeUntil k t => (s.time_until_next_allowed k t).2

/-- State reached after executing a sequence of operations. -/
def runOps (s : SlidingWindowRateLimiter) (ops : List Op) : SlidingWindowRateLimiter :=
  ops.foldl applyOp s

/-- Clock readings an operation consumes, in the order they are taken. -/
def Op.times : Op → List Time
  | .send _ t => [t]
  | .record _ t1 t2 => [t1, t2]
  | .timeUntil _ t => [t]

/-- The full sequence of clock readings of a run is non-decreasing, as
delivered by a monotonic clock source. -/
abbrev MonotoneClock (ops : List Op) : Prop :=
  List.Chain' (· ≤ ·) ((ops.map Op.times).flatten)

/-- Capacity invariant predicate: every log stored in the history has length
at most max_requests. -/
def CapInv (s : SlidingWindowRateLimiter) : Prop :=
  ∀ k l, histLookup s.request_history k = some l → (l.length : ℤ) ≤ s.max_requests

/-- Presence invariant predicate: no stored log is empty. -/
def NoEmptyLogs (s : SlidingWindowRateLimiter) : Prop :=
  ∀ k, histLookup s.request_history k ≠ some []

/-! Lemmas about the association-list operations. -/

theorem histLookup_histSet_self (h : Hist) (k : Key) (l : List Time) :
    histLookup (histSet h k l) k = some l := by
  induction h with
  | nil => simp [histSet, histLookup]
  | cons p t ih =>
    obtain ⟨a, b⟩ := p
    by_cases hk : a = k
    · simp [histSet, hk, histLookup]
    · simp [histSet, hk, histLookup, ih]

theorem histLookup_histSet_ne (h : Hist) (k k' : Key) (l : List Time)
    (hne : k ≠ k') : histLookup (histSet h k l) k' = histLookup h k' := by
  induction h with
  | nil => simp [histSet, histLookup, hne]
  | cons p t ih =>
    obtain ⟨a, b⟩ := p
    by_cases hk : a = k
    · subst hk
      simp [histSet, histLookup, hne, fun h : a = k' => hne (h ▸ rfl)]
    · simp [histSet, hk, histLookup, ih]

theorem histLookup_histErase_self (h : Hist) (k : Key) :
    histLookup (histErase h k) k = none := by
  induction h with
  | nil => simp [histErase, histLookup]
  | cons p t ih =>
    obtain ⟨a, b⟩ := p
    by_cases hk : a = k
    · simpa [histErase, hk] using ih
    · simpa [histErase, histLookup, hk] using ih

theorem histLookup_histErase_ne (h : Hist) (k k' : Key) (hne : k ≠ k') :
    histLookup (histErase h k) k' = histLookup h k' := by
  induction h with
  | nil => simp [histErase, histLookup]
  | cons p t ih =>
    obtain ⟨a, b⟩ := p
    by_cases hk : a = k
    · simpa [histErase, histLookup, hk, hne] using ih
    · by_cases hk' : a = k'
      · subst hk'
        simp [histErase, histLookup, hk]
      · simpa [histErase, histLookup, hk, hk'] using ih

theorem histSet_lookup_eq (h : Hist) (k : Key) (l : List Time)
    (hl : histLookup h k = some l) : histSet h k l = h := by
  induction h with
  | nil => simp [histLookup] at hl
  | cons p t ih =>
    obtain ⟨a, b⟩ := p
    by_cases hk : a = k
    · subst hk
      simp [histLookup] at hl
      simp [histSet, hl]
    · simp [histLookup, hk] at hl
      simp [histSet, hk, ih hl]

/-! Characterization of eviction. -/

theorem cleanup_window_lookup_self (s : SlidingWindowRateLimiter) (k : Key) (now : Time) :
    histLookup (s.cleanup_window k now).request_history k =
      (if ((histLookup s.request_history k).getD []).dropWhile
            (fun t => decide (t ≤ now - s.window_size)) = [] then none
       else some (((histLookup s.request_history k).getD []).dropWhile
            (fun t => decide (t ≤ now - s.window_size)))) := by
  unfold SlidingWindowRateLimiter.cleanup_window
  cases hl : histLookup s.request_history k with
  | none => simp [hl]
  | some l =>
    simp only [hl, Option.getD_some]
    by_cases he : l.dropWhile (fun t => decide (t ≤ now - s.window_size)) = []
    · simp [he, histLookup_histErase_self]
    · simp [he, histLookup_histSet_self]

theorem cleanup_window_lookup_ne (s : SlidingWindowRateLimiter) (k k' : Key)
    (now : Time) (hne : k ≠ k') :
    histLookup (s.cleanup_window k now).request_history k' =
      histLookup s.request_history k' := by
  unfold SlidingWindowRateLimiter.cleanup_window
  cases hl : histLookup s.request_history k with
  | none => rfl
  | some l =>
    by_cases he : l.dropWhile (fun t => decide (t ≤ now - s.window_size)) = []
    · simp [he, histLookup_histErase_ne _ _ _ hne]
    · simp [he, histLookup_histSet_ne _ _ _ _ hne]

theorem cleanup_window_config (s : SlidingWindowRateLimiter) (k : Key) (now : Time) :
    (s.cleanup_window k now).window_size = s.window_size ∧
    (s.cleanup_window k now).max_requests = s.max_requests := by
  unfold SlidingWindowRateLimiter.cleanup_window
  cases histLookup s.request_history k with
  | none => exact ⟨rfl, rfl⟩
  | some l =>
    by_cases he : l.dropWhile (fun t => decide (t ≤ now - s.window_size)) = [] <;>
      simp [he]

theorem cleanup_window_active (s : SlidingWindowRateLimiter) (k : Key) (now : Time) :
    (histLookup (s.cleanup_window k now).request_history k).getD [] =
      ((histLookup s.request_history k).getD []).dropWhile
        (fun t => decide (t ≤ now - s.window_size)) := by
  rw [cleanup_window_lookup_self]
  by_cases he : ((histLookup s.request_history k).getD []).dropWhile
      (fun t => decide (t ≤ now - s.window_size)) = []
  · simp [he]
  · simp [he]

theorem cleanup_window_no_empty (s : SlidingWindowRateLimiter) (k : Key) (now : Time) :
    histLookup (s.cleanup_window k now).request_history k ≠ some [] := by
  rw [cleanup_window_lookup_self]
  by_cases he : ((histLookup s.request_history k).getD []).dropWhile
      (fun t => decide (t ≤ now - s.window_size)) = []
  · simp [he]
  · simp [he]

/-! Characterization of the admission check. -/

theorem can_send_message_snd (s : SlidingWindowRateLimiter) (k : Key) (now : Time) :
    (s.can_send_message k now).2 = s.cleanup_window k now := by
  unfold SlidingWindowRateLimiter.can_send_message
  cases hl : histLookup (s.cleanup_window k now).request_history k with
  | none => simp [hl]
  | some l =>
    by_cases he : l = [] <;> simp [hl, he]

theorem can_send_message_iff (s : SlidingWindowRateLimiter) (k : Key) (now : Time) :
    (s.can_send_message k now).1 = true ↔
      (histLookup (s.cleanup_window k now).request_history k = none ∨
       (((histLookup (s.cleanup_window k now).request_history k).getD []).length : ℤ)
         < s.max_requests) := by
  unfold SlidingWindowRateLimiter.can_send_message
  cases hl : histLookup (s.cleanup_window k now).request_history k with
  | none => simp [hl]
  | some l =>
    cases l with
    | nil => exact absurd hl (cleanup_window_no_empty s k now)
    | cons a t => simp [hl]

/-! Characterization of recording. -/

theorem record_message_denied (s : SlidingWindowRateLimiter) (k : Key) (t1 t2 : Time)
    (h : (s.can_send_message k t1).1 = false) :
    s.record_message k t1 t2 = (false, s.cleanup_window k t1) := by
  simp [SlidingWindowRateLimiter.record_message, h, can_send_message_snd]

theorem record_message_admitted (s : SlidingWindowRateLimiter) (k : Key) (t1 t2 : Time)
    (h : (s.can_send_message k t1).1 = true) :
    s.record_message k t1 t2 =
      (true, { s.cleanup_window k t1 with
        request_history := histSet (s.cleanup_window k t1).request_history k
          (((histLookup (s.cleanup_window k t1).request_history k).getD []) ++ [t2]) }) := by
  simp [SlidingWindowRateLimiter.record_message, h, can_send_message_snd]

/-! Characterization of the wait-time query. -/

theorem time_until_snd (s : SlidingWindowRateLimiter) (k : Key) (now : Time) :
    (s.time_until_next_allowed k now).2 = s ∨
    (s.time_until_next_allowed k now).2 = s.cleanup_window k now := by
  unfold SlidingWindowRateLimiter.time_until_next_allowed
  cases histLookup s.request_history k with
  | none => exact Or.inl rfl
  | some l =>
    right
    cases hl : histLookup (s.cleanup_window k now).request_history k with
    | none => simp [hl]
    | some l2 =>
      cases l2 with
      | nil => simp [hl]
      | cons o rest =>
        simp only [hl]
        split <;> rfl

theorem absent_key_fresh (s : SlidingWindowRateLimiter) (k : Key) (now : Time)
    (h : histLookup s.request_history k = none) :
    s.can_send_message k now = (true, s) ∧
    s.time_until_next_allowed k now = (Except.ok 0, s) := by
  have hc : s.cleanup_window k now = s := by
    unfold SlidingWindowRateLimiter.cleanup_window
    rw [h]
  refine ⟨?_, ?_⟩
  · simp [SlidingWindowRateLimiter.can_send_message, hc, h]
  · simp [SlidingWindowRateLimiter.time_until_next_allowed, h]

/-! Invariant preservation. -/

theorem cleanup_window_absent (s : SlidingWindowRateLimiter) (k : Key) (now : Time)
    (h : histLookup s.request_history k = none) : s.cleanup_window k now = s := by
  unfold SlidingWindowRateLimiter.cleanup_window
  rw [h]

theorem cleanup_active_length_le (s : SlidingWindowRateLimiter) (k : Key) (now : Time) :
    ((histLookup (s.cleanup_window k now).request_history k).getD []).length ≤
      ((histLookup s.request_history k).getD []).length := by
  rw [cleanup_window_active]
  exact (List.dropWhile_sublist _).length_le

theorem capInv_cleanup (s : SlidingWindowRateLimiter) (k : Key) (now : Time)
    (h : CapInv s) : CapInv (s.cleanup_window k now) := by
  intro k' l hl
  rw [(cleanup_window_config s k now).2]
  by_cases hk : k = k'
  · subst hk
    cases horig : histLookup s.request_history k with
    | none =>
      rw [cleanup_window_absent s k now horig, horig] at hl
      exact absurd hl (by simp)
    | some l0 =>
      have h1 : (histLookup (s.cleanup_window k now).request_history k).getD [] = l := by
        rw [hl]
        rfl
      have h2 := cleanup_active_length_le s k now
      rw [h1, horig] at h2
      simp only [Option.getD_some] at h2
      calc (l.length : ℤ) ≤ (l0.length : ℤ) := by exact_mod_cast h2
        _ ≤ s.max_requests := h k l0 horig
  · rw [cleanup_window_lookup_ne s k k' now hk] at hl
    exact h k' l hl

theorem noEmpty_cleanup (s : SlidingWindowRateLimiter) (k : Key) (now : Time)
    (h : NoEmptyLogs s) : NoEmptyLogs (s.cleanup_window k now) := by
  intro k'
  by_cases hk : k = k'
  · subst hk
    exact cleanup_window_no_empty s k now
  · rw [cleanup_window_lookup_ne s k k' now hk]
    exact h k'

theorem capInv_record (s : SlidingWindowRateLimiter) (k : Key) (t1 t2 : Time)
    (hm : 1 ≤ s.max_requests) (h : CapInv s) : CapInv (s.record_message k t1 t2).2 := by
  by_cases hd : (s.can_send_message k t1).1 = true
  · rw [record_message_admitted s k t1 t2 hd]
    intro k' l hl
    simp only at hl ⊢
    rw [(cleanup_window_config s k t1).2]
    by_cases hk : k = k'
    · subst hk
      rw [histLookup_histSet_self] at hl
      have hll : l = ((histLookup (s.cleanup_window k t1).request_history k).getD []) ++ [t2] :=
        (Option.some.inj hl).symm
      rcases (can_send_message_iff s k t1).mp hd with habs | hlt
      · rw [hll, habs]
        simpa using hm
      · rw [hll]
        rw [List.length_append, List.length_singleton]
        push_cast
        omega
    · rw [histLookup_histSet_ne _ _ _ _ hk] at hl
      have := capInv_cleanup s k t1 h k' l hl
      rwa [(cleanup_window_config s k t1).2] at this
  · rw [record_message_denied s k t1 t2 (by simpa using hd)]
    exact capInv_cleanup s k t1 h

theorem noEmpty_record (s : SlidingWindowRateLimiter) (k : Key) (t1 t2 : Time)
    (h : NoEmptyLogs s) : NoEmptyLogs (s.record_message k t1 t2).2 := by
  by_cases hd : (s.can_send_message k t1).1 = true
  · rw [record_message_admitted s k t1 t2 hd]
    intro k'
    simp only
    by_cases hk : k = k'
    · subst hk
      rw [histLookup_histSet_self]
      simp
    · rw [histLookup_histSet_ne _ _ _ _ hk]
      exact noEmpty_cleanup s k t1 h k'
  · rw [record_message_denied s k t1 t2 (by simpa using hd)]
    exact noEmpty_cleanup s k t1 h

theorem applyOp_config (s : SlidingWindowRateLimiter) (op : Op) :
    (applyOp s op).window_size = s.window_size ∧
    (applyOp s op).max_requests = s.max_requests := by
  cases op with
  | send k t =>
    rw [applyOp, can_send_message_snd]
    exact cleanup_window_config s k t
  | record k t1 t2 =>
    by_cases hd : (s.can_send_message k t1).1 = true
    · rw [applyOp, record_message_admitted s k t1 t2 hd]
      exact cleanup_window_config s k t1
    · rw [applyOp, record_message_denied s k t1 t2 (by simpa using hd)]
      exact cleanup_window_config s k t1
  | timeUntil k t =>
    rcases time_until_snd s k t with h2 | h2 <;> rw [applyOp, h2]
    · exact ⟨rfl, rfl⟩
    · exact cleanup_window_config s k t

theorem capInv_applyOp (s : SlidingWindowRateLimiter) (op : Op)
    (hm : 1 ≤ s.max_requests) (h : CapInv s) : CapInv (applyOp s op) := by
  cases op with
  | send k t =>
    rw [applyOp, can_send_message_snd]
    exact capInv_cleanup s k t h
  | record k t1 t2 => exact capInv_record s k t1 t2 hm h
  | timeUntil k t =>
    rcases time_until_snd s k t with h2 | h2 <;> rw [applyOp, h2]
    · exact h
    · exact capInv_cleanup s k t h

theorem noEmpty_applyOp (s : SlidingWindowRateLimiter) (op : Op)
    (h : NoEmptyLogs s) : NoEmptyLogs (applyOp s op) := by
  cases op with
  | send k t =>
    rw [applyOp, can_send_message_snd]
    exact noEmpty_cleanup s k t h
  | record k t1 t2 => exact noEmpty_record s k t1 t2 h
  | timeUntil k t =>
    rcases time_until_snd s k t with h2 | h2 <;> rw [applyOp, h2]
    · exact h
    · exact noEmpty_cleanup s k t h

theorem runOps_cons (s : SlidingWindowRateLimiter) (op : Op) (ops : List Op) :
    runOps s (op :: ops) = runOps (applyOp s op) ops := rfl

theorem runOps_config (s : SlidingWindowRateLimiter) (ops : List Op) :
    (runOps s ops).window_size = s.window_size ∧
    (runOps s ops).max_requests = s.max_requests := by
  induction ops generalizing s with
  | nil => exact ⟨rfl, rfl⟩
  | cons op ops ih =>
    rw [runOps_cons]
    exact ⟨((ih (applyOp s op)).1).trans (applyOp_config s op).1,
           ((ih (applyOp s op)).2).trans (applyOp_config s op).2⟩

theorem capInv_runOps (s : SlidingWindowRateLimiter) (ops : List Op)
    (hm : 1 ≤ s.max_requests) (h : CapInv s) : CapInv (runOps s ops) := by
  induction ops generalizing s with
  | nil => exact h
  | cons op ops ih =>
    rw [runOps_cons]
    exact ih (applyOp s op) (by rw [(applyOp_config s op).2]; exact hm)
      (capInv_applyOp s op hm h)

theorem noEmpty_runOps (s : SlidingWindowRateLimiter) (ops : List Op)
    (h : NoEmptyLogs s) : NoEmptyLogs (runOps s ops) := by
  induction ops generalizing s with
  | nil => exact h
  | cons op ops ih =>
    rw [runOps_cons]
    exact ih (applyOp s op) (noEmpty_applyOp s op h)

/-! Eviction on a sorted log removes exactly the expired stamps. -/

theorem dropWhile_le_eq_filter (c : ℚ) (l : List ℚ) (hs : List.Sorted (· ≤ ·) l) :
    l.dropWhile (fun t => decide (t ≤ c)) = l.filter (fun t => decide (c < t)) := by
  induction l with
  | nil => rfl
  | cons a t ih =>
    rw [List.sorted_cons] at hs
    rw [List.dropWhile_cons, List.filter_cons]
    by_cases hac : a ≤ c
    · simp [hac, not_lt.mpr hac, ih hs.2]
    · have hca : c < a := not_le.mp hac
      have hfilter : t.filter (fun x => decide (c < x)) = t :=
        List.filter_eq_self.mpr (fun x hx =>
          decide_eq_true (lt_of_lt_of_le hca (hs.1 x hx)))
      simp [hac, hca, hfilter]

/-! Claim theorems. -/

/-- C1: the specification states that time_until_next_allowed always returns
normally with a non-negative duration, returning 0 whenever admission would
currently be granted (key absent, or log empty after eviction, or length
below max_requests).  The code contradicts this: with window_size 10,
max_requests 1 and history A maps-to [0], a call at now = 10 evicts the only
stamp, _cleanup_window deletes the key, and the subsequent dictionary access
self.request_history[user_id] on line 111 raises KeyError instead of
returning 0. -/
theorem time_until_next_allowed_keyerror_eval :
    SlidingWindowRateLimiter.time_until_next_allowed
        ⟨10, 1, [("A", [0])]⟩ "A" 10 =
      (Except.error (), ⟨10, 1, []⟩) := by
  norm_num [SlidingWindowRateLimiter.time_until_next_allowed,
    SlidingWindowRateLimiter.cleanup_window, histLookup, histErase,
    List.dropWhile, List.cons_ne_nil]

/-- C2 counterexample: the claim states that the timestamp appended by an
admitted record_message equals the instant at which admission was decided.
In the code the clock is read twice: admission is decided inside
can_send_message at the first reading and the appended stamp is the second
reading.  Concretely, starting from a fresh limiter, with first reading 0 and
second reading 1 the call is admitted and appends 1, whereas the decision
instant was 0, and 1 differs from 0. -/
theorem record_message_second_read_cex :
    (SlidingWindowRateLimiter.init 10 1).record_message "A" 0 1 =
      (true, ⟨10, 1, [("A", [1])]⟩) ∧ (1 : ℚ) ≠ 0 := by
  constructor
  · norm_num [SlidingWindowRateLimiter.record_message,
      SlidingWindowRateLimiter.can_send_message,
      SlidingWindowRateLimiter.cleanup_window, SlidingWindowRateLimiter.init,
      histLookup, histSet]
  · norm_num

/-- C2 amended: when record_message is admitted, the log it leaves for the
key is the post-eviction log of the first clock reading t1 (the instant at
which admission was decided) with the second clock reading t2 appended: the
appended timestamp is the second, possibly later, reading, not the decision
instant.  The indivisibility of check-evict-append with respect to concurrent
callers is a concurrency property outside this sequential embedding (the
source also takes no lock). -/
theorem record_message_appends_second_reading (s : SlidingWindowRateLimiter)
    (k : Key) (t1 t2 : Time) (h : (s.record_message k t1 t2).1 = true) :
    histLookup (s.record_message k t1 t2).2.request_history k =
      some (((histLookup (s.cleanup_window k t1).request_history k).getD []) ++ [t2]) := by
  have hc : (s.can_send_message k t1).1 = true := by
    cases hb : (s.can_send_message k t1).1 with
    | true => rfl
    | false =>
      rw [record_message_denied s k t1 t2 hb] at h
      simp at h
  rw [record_message_admitted s k t1 t2 hc]
  simp [histLookup_histSet_self]

/-- C2 witness: the amended theorem applied at the concrete admitted call of
the counterexample. -/
theorem record_message_appends_second_reading_witness :
    histLookup ((SlidingWindowRateLimiter.init 10 1).record_message
        "A" 0 1).2.request_history "A" =
      some (((histLookup ((SlidingWindowRateLimiter.init 10 1).cleanup_window
        "A" 0).request_history "A").getD []) ++ [1]) :=
  record_message_appends_second_reading (SlidingWindowRateLimiter.init 10 1) "A" 0 1
    (by norm_num [SlidingWindowRateLimiter.record_message,
      SlidingWindowRateLimiter.can_send_message,
      SlidingWindowRateLimiter.cleanup_window, SlidingWindowRateLimiter.init,
      histLookup, histSet])

/-- C3 counterexample: the claim states that construction with
window_size ≤ 0 or max_requests < 1 fails at construction time.  The
constructor body performs no validation at all: constructing with
window_size = 0 and max_requests = 0 succeeds, stores the degenerate
configuration, and even the first use proceeds normally (a record_message on
the fresh instance is admitted through the absent-key branch). -/
theorem construction_unvalidated_cex :
    SlidingWindowRateLimiter.init 0 0 = ⟨0, 0, []⟩ ∧
    ((SlidingWindowRateLimiter.init 0 0).record_message "A" 0 0).1 = true := by
  constructor
  · rfl
  · norm_num [SlidingWindowRateLimiter.record_message,
      SlidingWindowRateLimiter.can_send_message,
      SlidingWindowRateLimiter.cleanup_window, SlidingWindowRateLimiter.init,
      histLookup, histSet]

/-- C3 amended: construction never fails and performs no validation: for
every window_size and max_requests, including non-positive window sizes and
max_requests < 1, the constructor returns normally with the given
configuration stored and an empty history. -/
theorem construction_total (w : ℚ) (m : ℤ) :
    (SlidingWindowRateLimiter.init w m).window_size = w ∧
    (SlidingWindowRateLimiter.init w m).max_requests = m ∧
    (SlidingWindowRateLimiter.init w m).request_history = [] :=
  ⟨rfl, rfl, rfl⟩

/-- C4 counterexample: the claim states that a denied record_message leaves
the state unchanged in every state.  In a state violating the capacity
invariant (key A with three stamps [0, 5, 6] and max_requests 2, window 10),
a call at time 11 evicts the stamp 0, still finds 2 = max_requests stamps,
is denied, and returns with the mutated history [5, 6]: denied, yet the
state changed. -/
theorem record_denied_mutates_cex :
    ((⟨10, 2, [("A", [0, 5, 6])]⟩ : SlidingWindowRateLimiter).record_message
        "A" 11 11).1 = false ∧
    ((⟨10, 2, [("A", [0, 5, 6])]⟩ : SlidingWindowRateLimiter).record_message
        "A" 11 11).2 ≠ (⟨10, 2, [("A", [0, 5, 6])]⟩ : SlidingWindowRateLimiter) := by
  constructor <;>
    norm_num [SlidingWindowRateLimiter.record_message,
      SlidingWindowRateLimiter.can_send_message,
      SlidingWindowRateLimiter.cleanup_window, histLookup, histSet,
      List.dropWhile, List.cons_ne_nil]

/-- C4 amended: in every state satisfying the capacity bound for the queried
key (which holds in every state reachable by the limiter itself, by C7), a
denied record_message returns false and leaves the state unchanged: denial
implies that the eviction performed by the admission check removed nothing,
so the state after the call equals the state before it. -/
theorem record_denied_state_unchanged (s : SlidingWindowRateLimiter) (k : Key)
    (t1 t2 : Time)
    (hcap : (((histLookup s.request_history k).getD []).length : ℤ) ≤ s.max_requests)
    (hden : (s.record_message k t1 t2).1 = false) :
    (s.record_message k t1 t2).2 = s := by
  have hc : (s.can_send_message k t1).1 = false := by
    cases hb : (s.can_send_message k t1).1 with
    | false => rfl
    | true =>
      rw [record_message_admitted s k t1 t2 hb] at hden
      simp at hden
  rw [record_message_denied s k t1 t2 hc]
  cases horig : histLookup s.request_history k with
  | none => exact cleanup_window_absent s k t1 horig
  | some l =>
    have hnot : ¬(histLookup (s.cleanup_window k t1).request_history k = none ∨
        (((histLookup (s.cleanup_window k t1).request_history k).getD []).length : ℤ)
          < s.max_requests) := by
      intro hr
      rw [(can_send_message_iff s k t1).mpr hr] at hc
      exact absurd hc (by simp)
    push_neg at hnot
    obtain ⟨hne, hge⟩ := hnot
    have hact : (histLookup (s.cleanup_window k t1).request_history k).getD [] =
        l.dropWhile (fun t => decide (t ≤ t1 - s.window_size)) := by
      rw [cleanup_window_active, horig]
      rfl
    rw [horig] at hcap
    simp only [Option.getD_some] at hcap
    rw [hact] at hge
    have hlen : l.length ≤ (l.dropWhile (fun t => decide (t ≤ t1 - s.window_size))).length := by
      have h1 : (l.length : ℤ) ≤
          ((l.dropWhile (fun t => decide (t ≤ t1 - s.window_size))).length : ℤ) :=
        le_trans hcap hge
      exact_mod_cast h1
    have heq : l.dropWhile (fun t => decide (t ≤ t1 - s.window_size)) = l :=
      (List.dropWhile_sublist _).eq_of_length_le hlen
    have hlne : l ≠ [] := by
      intro h0
      apply hne
      rw [cleanup_window_lookup_self, horig]
      simp [h0]
    unfold SlidingWindowRateLimiter.cleanup_window
    rw [horig]
    simp only [heq, if_neg hlne]
    rw [histSet_lookup_eq s.request_history k l horig]

/-- C4 witness: the amended theorem applied at a concrete saturated state in
which the denied call indeed changes nothing. -/
theorem record_denied_state_unchanged_witness :
    ((((histLookup (⟨10, 1, [("A", [5])]⟩ :
          SlidingWindowRateLimiter).request_history "A").getD []).length : ℤ) ≤
        (⟨10, 1, [("A", [5])]⟩ : SlidingWindowRateLimiter).max_requests) ∧
    (((⟨10, 1, [("A", [5])]⟩ : SlidingWindowRateLimiter).record_message
        "A" 6 6).1 = false) ∧
    ((⟨10, 1, [("A", [5])]⟩ : SlidingWindowRateLimiter).record_message "A" 6 6).2 =
      (⟨10, 1, [("A", [5])]⟩ : SlidingWindowRateLimiter) :=
  ⟨by norm_num [histLookup],
   by norm_num [SlidingWindowRateLimiter.record_message,
     SlidingWindowRateLimiter.can_send_message,
     SlidingWindowRateLimiter.cleanup_window, histLookup, histSet,
     List.dropWhile, List.cons_ne_nil],
   record_denied_state_unchanged (⟨10, 1, [("A", [5])]⟩ : SlidingWindowRateLimiter)
     "A" 6 6 (by norm_num [histLookup])
     (by norm_num [SlidingWindowRateLimiter.record_message,
       SlidingWindowRateLimiter.can_send_message,
       SlidingWindowRateLimiter.cleanup_window, histLookup, histSet,
       List.dropWhile, List.cons_ne_nil])⟩

/-- C5: eviction at time now removes from a key's (non-decreasing) log
exactly the timestamps t with t ≤ now - window_size and retains all others:
the surviving log is the sublist of stamps strictly inside the half-open
window, and in particular a stamp equal to now - window_size is expired and
not retained. -/
theorem eviction_halfopen_window (s : SlidingWindowRateLimiter) (k : Key)
    (now : Time) (l : List Time) (hl : histLookup s.request_history k = some l)
    (hs : List.Sorted (· ≤ ·) l) :
    (histLookup (s.cleanup_window k now).request_history k).getD [] =
      l.filter (fun t => decide (now - s.window_size < t)) ∧
    (now - s.window_size) ∉
      (histLookup (s.cleanup_window k now).request_history k).getD [] := by
  have h1 : (histLookup (s.cleanup_window k now).request_history k).getD [] =
      l.dropWhile (fun t => decide (t ≤ now - s.window_size)) := by
    rw [cleanup_window_active, hl]
    rfl
  have h2 := dropWhile_le_eq_filter (now - s.window_size) l hs
  refine ⟨h1.trans h2, ?_⟩
  rw [h1, h2]
  intro hmem
  have hdec := (List.mem_filter.mp hmem).2
  simp only [decide_eq_true_eq] at hdec
  exact lt_irrefl _ hdec

/-- C5 witness: eviction at now = 10 with window 10 on the sorted log
[0, 5, 6] removes exactly the boundary stamp 0 = now - window_size. -/
theorem eviction_halfopen_window_witness :
    histLookup (⟨10, 2, [("A", [0, 5, 6])]⟩ :
        SlidingWindowRateLimiter).request_history "A" = some [0, 5, 6] ∧
    List.Sorted (· ≤ ·) [(0:ℚ), 5, 6] ∧
    ((histLookup ((⟨10, 2, [("A", [0, 5, 6])]⟩ :
          SlidingWindowRateLimiter).cleanup_window "A" 10).request_history "A").getD [] =
        [0, 5, 6].filter (fun t => decide ((10:ℚ) - 10 < t)) ∧
      ((10:ℚ) - 10) ∉ (histLookup ((⟨10, 2, [("A", [0, 5, 6])]⟩ :
          SlidingWindowRateLimiter).cleanup_window "A" 10).request_history "A").getD []) :=
  ⟨by norm_num [histLookup],
   by norm_num [List.sorted_cons],
   eviction_halfopen_window (⟨10, 2, [("A", [0, 5, 6])]⟩ : SlidingWindowRateLimiter)
     "A" 10 [0, 5, 6] (by norm_num [histLookup]) (by norm_num [List.sorted_cons])⟩

/-- C6: can_send_message reads the clock once (modelled by its single time
argument), mutates the state exactly by evicting the key's log for that
time, and returns true if and only if the key is absent after eviction or
the remaining log length is strictly below max_requests.  The edge cases
follow: with 1 ≤ max_requests, a key with exactly max_requests - 1 surviving
stamps is admissible and one with exactly max_requests surviving stamps is
not. -/
theorem can_send_admission_iff (s : SlidingWindowRateLimiter) (k : Key) (now : Time) :
    ((s.can_send_message k now).2 = s.cleanup_window k now) ∧
    ((s.can_send_message k now).1 = true ↔
      (histLookup (s.cleanup_window k now).request_history k = none ∨
       (((histLookup (s.cleanup_window k now).request_history k).getD []).length : ℤ)
         < s.max_requests)) ∧
    (1 ≤ s.max_requests →
      ((((histLookup (s.cleanup_window k now).request_history k).getD []).length : ℤ)
          = s.max_requests - 1 → (s.can_send_message k now).1 = true) ∧
      ((((histLookup (s.cleanup_window k now).request_history k).getD []).length : ℤ)
          = s.max_requests → (s.can_send_message k now).1 = false)) := by
  refine ⟨can_send_message_snd s k now, can_send_message_iff s k now,
    fun hm => ⟨fun he => ?_, fun he => ?_⟩⟩
  · exact (can_send_message_iff s k now).mpr (Or.inr (by omega))
  · cases hb : (s.can_send_message k now).1 with
    | false => rfl
    | true =>
      exfalso
      rcases (can_send_message_iff s k now).mp hb with hnone | hlt
      · rw [hnone] at he
        simp only [Option.getD_none, List.length_nil, Nat.cast_zero] at he
        omega
      · omega

/-- C6 witness: the iff and both edge cases applied at concrete inputs: a
fresh limiter admits, a key with max_requests - 1 surviving stamps admits,
and a saturated key does not. -/
theorem can_send_admission_iff_witness :
    ((⟨10, 1, []⟩ : SlidingWindowRateLimiter).can_send_message "A" 0).1 = true ∧
    ((⟨10, 2, [("A", [5])]⟩ : SlidingWindowRateLimiter).can_send_message "A" 6).1 = true ∧
    ((⟨10, 1, [("A", [5])]⟩ : SlidingWindowRateLimiter).can_send_message "A" 6).1 = false :=
  ⟨((can_send_admission_iff ⟨10, 1, []⟩ "A" 0).2.1).mpr
      (Or.inl (by norm_num [SlidingWindowRateLimiter.cleanup_window, histLookup])),
   (((can_send_admission_iff ⟨10, 2, [("A", [5])]⟩ "A" 6).2.2 (by norm_num)).1
      (by norm_num [SlidingWindowRateLimiter.cleanup_window, histLookup, histSet,
        List.dropWhile, List.cons_ne_nil])),
   (((can_send_admission_iff ⟨10, 1, [("A", [5])]⟩ "A" 6).2.2 (by norm_num)).2
      (by norm_num [SlidingWindowRateLimiter.cleanup_window, histLookup, histSet,
        List.dropWhile, List.cons_ne_nil]))⟩

/-- C7: capacity invariant: in every state reachable from a freshly
constructed limiter by any sequence of operations whose clock readings are
non-decreasing, with max_requests ≥ 1, the number of timestamps surviving
eviction at any current time is at most max_requests, for every key. -/
theorem capacity_invariant_reachable (w : ℚ) (m : ℤ) (hm : 1 ≤ m)
    (ops : List Op) (hclock : MonotoneClock ops) (k : Key) (now : Time) :
    (((histLookup ((runOps (SlidingWindowRateLimiter.init w m)
        ops).cleanup_window k now).request_history k).getD []).length : ℤ) ≤ m := by
  have hmax : (runOps (SlidingWindowRateLimiter.init w m) ops).max_requests = m :=
    (runOps_config (SlidingWindowRateLimiter.init w m) ops).2
  have hinv : CapInv (runOps (SlidingWindowRateLimiter.init w m) ops) :=
    capInv_runOps (SlidingWindowRateLimiter.init w m) ops hm
      (fun k' l hl => by simp [SlidingWindowRateLimiter.init, histLookup] at hl)
  have h1 := cleanup_active_length_le (runOps (SlidingWindowRateLimiter.init w m) ops) k now
  cases horig : histLookup (runOps (SlidingWindowRateLimiter.init w m)
      ops).request_history k with
  | none =>
    rw [horig] at h1
    simp only [Option.getD_none, List.length_nil, Nat.le_zero] at h1
    rw [h1]
    simp only [Nat.cast_zero]
    omega
  | some l =>
    have hb := hinv k l horig
    rw [hmax] at hb
    rw [horig] at h1
    simp only [Option.getD_some] at h1
    calc (((histLookup ((runOps (SlidingWindowRateLimiter.init w m)
          ops).cleanup_window k now).request_history k).getD []).length : ℤ)
        ≤ (l.length : ℤ) := by exact_mod_cast h1
      _ ≤ m := hb

/-- C7 witness: the capacity bound applied to a concrete monotone run of two
admitted records for the same key with max_requests = 1. -/
theorem capacity_invariant_reachable_witness :
    (1:ℤ) ≤ 1 ∧ MonotoneClock [Op.record "A" 0 0, Op.record "A" 1 1] ∧
    (((histLookup ((runOps (SlidingWindowRateLimiter.init 10 1)
        [Op.record "A" 0 0, Op.record "A" 1 1]).cleanup_window
          "A" 1).request_history "A").getD []).length : ℤ) ≤ 1 :=
  ⟨by norm_num,
   by norm_num [MonotoneClock, Op.times, List.chain'_cons],
   capacity_invariant_reachable 10 1 (by norm_num)
     [Op.record "A" 0 0, Op.record "A" 1 1]
     (by norm_num [MonotoneClock, Op.times, List.chain'_cons]) "A" 1⟩

/-- C8: key-presence invariant: in every state reachable from the empty
initial state, no key is stored with an empty log (presence of a key is
equivalent to its log being non-empty), and a key whose entry is absent --
in particular one whose last event has just been evicted -- behaves exactly
like a never-seen key: can_send_message answers true without changing the
state and time_until_next_allowed answers 0 without changing the state. -/
theorem key_presence_invariant (w : ℚ) (m : ℤ) (ops : List Op) (k : Key) (now : Time) :
    histLookup (runOps (SlidingWindowRateLimiter.init w m) ops).request_history k ≠
      some [] ∧
    (histLookup (runOps (SlidingWindowRateLimiter.init w m) ops).request_history k =
        none →
      (runOps (SlidingWindowRateLimiter.init w m) ops).can_send_message k now =
          (true, runOps (SlidingWindowRateLimiter.init w m) ops) ∧
      (runOps (SlidingWindowRateLimiter.init w m) ops).time_until_next_allowed k now =
          (Except.ok 0, runOps (SlidingWindowRateLimiter.init w m) ops)) := by
  refine ⟨?_, fun habs =>
    absent_key_fresh (runOps (SlidingWindowRateLimiter.init w m) ops) k now habs⟩
  exact noEmpty_runOps (SlidingWindowRateLimiter.init w m) ops
    (fun k' => by simp [SlidingWindowRateLimiter.init, histLookup]) k

/-- C8 witness: after recording for key A at time 0 and a query at time 20
that evicts A's only event and deletes the key, the key is absent and both
queries at time 30 behave exactly like on a never-seen key. -/
theorem key_presence_invariant_witness :
    histLookup (runOps (SlidingWindowRateLimiter.init 10 1)
        [Op.record "A" 0 0, Op.send "A" 20]).request_history "A" ≠ some [] ∧
    ((runOps (SlidingWindowRateLimiter.init 10 1)
        [Op.record "A" 0 0, Op.send "A" 20]).can_send_message "A" 30 =
      (true, runOps (SlidingWindowRateLimiter.init 10 1)
        [Op.record "A" 0 0, Op.send "A" 20]) ∧
     (runOps (SlidingWindowRateLimiter.init 10 1)
        [Op.record "A" 0 0, Op.send "A" 20]).time_until_next_allowed "A" 30 =
      (Except.ok 0, runOps (SlidingWindowRateLimiter.init 10 1)
        [Op.record "A" 0 0, Op.send "A" 20])) :=
  ⟨(key_presence_invariant 10 1 [Op.record "A" 0 0, Op.send "A" 20] "A" 30).1,
   (key_presence_invariant 10 1 [Op.record "A" 0 0, Op.send "A" 20] "A" 30).2
     (by norm_num [runOps, applyOp, SlidingWindowRateLimiter.record_message,
       SlidingWindowRateLimiter.can_send_message,
       SlidingWindowRateLimiter.cleanup_window, SlidingWindowRateLimiter.init,
       histLookup, histSet, histErase, List.dropWhile, List.cons_ne_nil])⟩

/-- C9: the spec claims queries repeated at the same instant yield the same
results each time.  The code contradicts this through the same defect as C1:
with window 10, max_requests 1 and history A maps-to [0], the first
time_until_next_allowed at now = 10 raises KeyError (after deleting the key),
while an identical second call at the same instant returns 0: the two results
differ. -/
theorem repeated_query_differs_eval :
    ((⟨10, 1, [("A", [0])]⟩ :
        SlidingWindowRateLimiter).time_until_next_allowed "A" 10).1 =
      Except.error () ∧
    (((⟨10, 1, [("A", [0])]⟩ :
        SlidingWindowRateLimiter).time_until_next_allowed "A" 10).2.time_until_next_allowed
        "A" 10).1 = Except.ok 0 := by
  constructor <;>
    norm_num [SlidingWindowRateLimiter.time_until_next_allowed,
      SlidingWindowRateLimiter.cleanup_window, histLookup, histErase,
      List.dropWhile, List.cons_ne_nil]

/-- C10: constructing with no arguments substitutes the Python defaults
window_size = 10 and max_requests = 1, and the resulting instance is equal,
as a state, to one constructed explicitly with those values, so every
sequence of operations behaves identically on the two. -/
theorem default_construction_eq :
    SlidingWindowRateLimiter.initDefault = SlidingWindowRateLimiter.init 10 1 ∧
    ∀ ops : List Op, runOps SlidingWindowRateLimiter.initDefault ops =
      runOps (SlidingWindowRateLimiter.init 10 1) ops :=
  ⟨rfl, fun _ => rfl⟩
